import Mathlib

/-!
Shallow embedding of the sales aggregation pipeline of
`src/streamlit_app.py` (Fairfax real-estate dashboard).

Modelling conventions:
* A pandas `Timestamp` is a pair of the epoch instant `t : Int` (the int64
  value pandas actually compares) and the calendar year `year : Int` (what
  `.dt.year` extracts), together with a zone-awareness flag `aware`
  (`True` = carries the UTC zone).  No claim relates `t` and `year`
  arithmetically, so `year` is carried as a field rather than recomputed
  from `t`.
* `price` is `ℚ`: exact rational arithmetic stands in for float64; the only
  float behaviours a claim depends on (division by zero giving ±inf or NaN,
  `mean` of an empty series giving NaN) are modelled explicitly by `PVal`.
* Missing values of the `sale_validity` column are `Option.none`.
* A pandas comparison between a whole column and a scalar bound either
  raises (mixed tz-naive/tz-aware operands) or yields a boolean mask;
  this is an `Except String` computation here.
-/

namespace Fairfax

/-- A pandas timestamp: epoch instant, calendar year, tz-awareness flag. -/
structure Timestamp where
  t : Int
  year : Int
  aware : Bool
deriving DecidableEq, Repr

/-- A raw row of the `sales` table before `load_data` normalisation:
`sale_validity` may be missing (SQL NULL), and `sale_date` carries whatever
zone information the stored string had. -/
structure RawRow where
  property_id : Nat
  sale_date : Timestamp
  price : ℚ
  tax_year : Int
  sale_validity : Option String
deriving DecidableEq, Repr

/-- A row after `load_data`: `sale_validity` is a plain string. -/
structure Row where
  property_id : Nat
  sale_date : Timestamp
  price : ℚ
  tax_year : Int
  sale_validity : String
deriving DecidableEq, Repr

/-- Python `str.strip()`: drop whitespace from both ends. -/
def pyStrip (s : String) : String :=
  ⟨(((s.data.dropWhile Char.isWhitespace).reverse.dropWhile
      Char.isWhitespace).reverse)⟩

/-- Python `str.upper()` on ASCII data: upper-case every character. -/
def pyUpper (s : String) : String :=
  ⟨s.data.map Char.toUpper⟩

/-- Embeds `df['sale_validity'].fillna("Unknown").str.strip().str.upper()`
(line 22): a NULL becomes `"Unknown"`, then surrounding whitespace is
stripped and the result upper-cased. -/
def normalizeValidity (v : Option String) : String :=
  pyUpper (pyStrip (v.getD "Unknown"))

/-- Embeds `load_data` (lines 19-23).  `pd.to_datetime(df['sale_date'])`
is called without `utc=True`, so it converts the stored value to a proper
timestamp but neither adds nor removes zone information: the `Timestamp`
field is passed through unchanged.  Only `sale_validity` is rewritten. -/
def load_data (raw : List RawRow) : List Row :=
  raw.map (fun r =>
    { property_id := r.property_id
      sale_date := r.sale_date
      price := r.price
      tax_year := r.tax_year
      sale_validity := normalizeValidity r.sale_validity })

/-- Embeds `pd.to_datetime(d).tz_localize("UTC")` (lines 43-44) applied to
the (zone-naive) sidebar dates: the instant is kept, the value becomes
zone-aware. -/
def tz_localize_utc (ts : Timestamp) : Timestamp :=
  { ts with aware := true }

/-- The error pandas raises when a tz-naive and a tz-aware datetime meet
in a comparison. -/
def tzMismatchMsg : String :=
  "Cannot compare tz-naive and tz-aware timestamps"

/-- Embeds a single pandas `<=` comparison between datetimes: raises when
exactly one operand is zone-aware, otherwise compares the instants. -/
def tsLeE (a b : Timestamp) : Except String Bool :=
  if a.aware = b.aware then .ok (decide (a.t ≤ b.t)) else .error tzMismatchMsg

/-- The pure per-row inclusion predicate of lines 47-51 once both operands
of each date comparison are known to live in the same zone:
`start <= sale_date <= end` (inclusive) and `sale_validity ∈ validity_filter`. -/
def rowPred (s e : Timestamp) (vs : List String) (r : Row) : Bool :=
  decide (s.t ≤ r.sale_date.t) && decide (r.sale_date.t ≤ e.t) &&
    vs.contains r.sale_validity

/-- Embeds the masked selection
`df[(df['sale_date'] >= start) & (df['sale_date'] <= end) & (df['sale_validity'].isin(vs))]`
(lines 47-51): each row's two date comparisons may raise (tz mismatch);
otherwise the row is kept iff both comparisons hold and the validity is a
member of the filter list.  The whole selection raises iff any row's
comparison raises, exactly as the column-wise pandas comparison does. -/
def filterE : List Row → Timestamp → Timestamp → List String →
    Except String (List Row)
  | [], _, _, _ => .ok []
  | r :: rs, s, e, vs =>
    match tsLeE s r.sale_date with
    | .error m => .error m
    | .ok b1 =>
      match tsLeE r.sale_date e with
      | .error m => .error m
      | .ok b2 =>
        match filterE rs s e vs with
        | .error m => .error m
        | .ok rest =>
          .ok (if b1 && b2 && vs.contains r.sale_validity then r :: rest
               else rest)

/-- The full filtering step of the app: the sidebar bounds are first
tz-localised to UTC (lines 43-44), then the selection of lines 47-51 runs. -/
def filtered_df (rows : List Row) (start_date end_date : Timestamp)
    (vs : List String) : Except String (List Row) :=
  filterE rows (tz_localize_utc start_date) (tz_localize_utc end_date) vs

/-- Result value of a float64 computation: a finite rational, one of the
two IEEE infinities, or NaN. -/
inductive PVal where
  | fin (q : ℚ)
  | inf
  | neginf
  | nan
deriving DecidableEq, Repr

/-- IEEE float division as numpy performs it: a zero divisor yields
NaN (0/0) or a signed infinity, never an exception. -/
def pdiv (x y : ℚ) : PVal :=
  if y = 0 then (if x = 0 then .nan else if 0 < x then .inf else .neginf)
  else .fin (x / y)

/-- Multiplication by 100 (`.multiply(100)`, line 121): infinities and NaN
are absorbing. -/
def pvalMul100 : PVal → PVal
  | .fin q => .fin (q * 100)
  | .inf => .inf
  | .neginf => .neginf
  | .nan => .nan

/-- Round a rational to the nearest integer, ties to even, as numpy's
`round` does. -/
def rhe (x : ℚ) : Int :=
  let n := ⌊x⌋
  let f := x - (n : ℚ)
  if f < 1/2 then n
  else if 1/2 < f then n + 1
  else if n % 2 = 0 then n else n + 1

/-- Round to 2 decimal places. -/
def round2 (q : ℚ) : ℚ :=
  (rhe (q * 100) : ℚ) / 100

/-- Embeds `.round(2)` (line 122): finite values are rounded to 2 decimals,
infinities and NaN pass through. -/
def pvalRound2 : PVal → PVal
  | .fin q => .fin (round2 q)
  | v => v

/-- Arithmetic mean of a list of rationals (used where the group is known
to be non-empty). -/
def mean (l : List ℚ) : ℚ :=
  l.sum / (l.length : ℚ)

/-- Embeds `Series.mean()` as pandas computes it: NaN on an empty series. -/
def meanP (l : List ℚ) : PVal :=
  if l.isEmpty then .nan else .fin (mean l)

/-- The three KPI metrics of lines 57-59: `len(filtered_df)`,
`filtered_df['price'].sum()` (0 on empty) and `filtered_df['price'].mean()`
(NaN on empty). -/
structure Summary where
  count : Nat
  total_volume : ℚ
  average_price : PVal
deriving DecidableEq, Repr

/-- Embeds the KPI block (lines 57-59) as the spec's `summarize`. -/
def summarize (rows : List Row) : Summary :=
  { count := rows.length
    total_volume := (rows.map (·.price)).sum
    average_price := meanP (rows.map (·.price)) }

/-- Distinct elements of a list in order of first appearance (the key
order pandas' counting hash table produces). -/
def firstOccurrences {α : Type} [DecidableEq α] : List α → List α
  | [] => []
  | a :: as => a :: (firstOccurrences as).filter (fun b => b ≠ a)

/-- Per-property sale counts in order of first appearance in the view:
the unsorted content of `filtered_df['property_id'].value_counts()`
(line 100). -/
def countsInOrder (rows : List Row) : List (Nat × Nat) :=
  (firstOccurrences (rows.map (·.property_id))).map
    (fun p => (p, (rows.map (·.property_id)).count p))

/-- Embeds `sort_values(ascending=False)` as pandas implements it
(`nargsort`): for a descending sort the array and its index are reversed
first, a stable ascending argsort runs on the reversed data, and the
resulting indexer is reversed again.  The two reversals cancel on tied
keys, so the net effect is a stable descending sort: entries with equal
counts keep their first-encounter order.  At the value level this is
reverse, then a stable ascending insertion sort on the counts, then
reverse. -/
def sortDescByCount (l : List (Nat × Nat)) : List (Nat × Nat) :=
  (List.insertionSort (fun a b => a.2 ≤ b.2) l.reverse).reverse

/-- Embeds `filtered_df['property_id'].value_counts().head(n)` (line 100,
`n = 10` in the app): counts per property, sorted descending by count,
truncated to the first `n` entries. -/
def top_props (rows : List Row) (n : Nat) : List (Nat × Nat) :=
  (sortDescByCount (countsInOrder rows)).take n

/-- The distinct sale years of the view, ascending: the group keys of
`groupby(filtered_df['sale_date'].dt.year)` (line 118; pandas sorts group
keys ascending). -/
def yearsSorted (rows : List Row) : List Int :=
  List.insertionSort (· ≤ ·)
    (firstOccurrences (rows.map (fun r => r.sale_date.year)))

/-- Mean price of the rows of one sale year (each group is non-empty by
construction, so the plain rational mean is exact). -/
def groupMean (rows : List Row) (y : Int) : ℚ :=
  mean ((rows.filter (fun r => r.sale_date.year = y)).map (·.price))

/-- The per-year average prices, in ascending year order: the value column
of `groupby(year)['price'].mean()`. -/
def yearAvgs (rows : List Row) : List ℚ :=
  (yearsSorted rows).map (groupMean rows)

/-- Embeds `Series.pct_change()` on a series with no missing values: entry 0 is
NaN, entry i (i ≥ 1) is `(s[i] - s[i-1]) / s[i-1]` under IEEE division. -/
def pctChange (l : List ℚ) : List PVal :=
  (List.range l.length).map (fun i =>
    if i = 0 then .nan
    else pdiv (l.getD i 0 - l.getD (i - 1) 0) (l.getD (i - 1) 0))

/-- Embeds the YoY block (lines 116-125):
`groupby(year)['price'].mean().pct_change().multiply(100).round(2)`,
paired with its ascending year index. -/
def yoy (rows : List Row) : List (Int × PVal) :=
  (yearsSorted rows).zip
    (((pctChange (yearAvgs rows)).map pvalMul100).map pvalRound2)

/-! Concrete fixtures used by counterexamples and witnesses. -/

/-- A row whose raw sale date carried zone information (UTC-aware). -/
def rowAware1 : Row := ⟨1, ⟨5, 2021, true⟩, 100, 2021, "VALID"⟩

/-- A second zone-aware row with a different property and validity. -/
def rowAware2 : Row := ⟨2, ⟨20, 2021, true⟩, 200, 2021, "INVALID"⟩

/-- A row whose raw sale date was zone-naive (no zone information in the
stored string, hence none after `pd.to_datetime` without `utc=True`). -/
def rowNaive : Row := ⟨3, ⟨100, 2021, false⟩, 50, 2021, "VALID"⟩

/-- A raw row whose `sale_validity` is present but whitespace-only. -/
def rawBlankValidity : RawRow := ⟨1, ⟨0, 2021, true⟩, 100, 2021, some "  "⟩

/-- A raw row with a messy but non-blank `sale_validity`. -/
def rawMessyValidity : RawRow := ⟨1, ⟨0, 2021, true⟩, 100, 2021, some " vaLid "⟩

/-- The normalised form of `rawMessyValidity`. -/
def rowMessyNormalized : Row := ⟨1, ⟨0, 2021, true⟩, 100, 2021, "VALID"⟩

/-- Year 2020, single sale of price 0 (zero average). -/
def rowZero2020 : Row := ⟨1, ⟨0, 2020, true⟩, 0, 2020, "VALID"⟩

/-- Year 2021, single sale of price 100. -/
def rowHundred2021 : Row := ⟨2, ⟨400, 2021, true⟩, 100, 2021, "VALID"⟩

/-- Year 2020, single sale of price 100. -/
def rowAvg2020 : Row := ⟨1, ⟨0, 2020, true⟩, 100, 2020, "VALID"⟩

/-- Year 2021, single sale of price 150. -/
def rowAvg2021 : Row := ⟨2, ⟨400, 2021, true⟩, 150, 2021, "VALID"⟩

end Fairfax

/-! Helper lemmas (shared infrastructure, not tied to a single claim). -/

namespace Fairfax

theorem filterE_ok_of_aware (rows : List Row) (s e : Timestamp)
    (vs : List String) (hs : s.aware = true) (he : e.aware = true)
    (ha : ∀ r ∈ rows, r.sale_date.aware = true) :
    filterE rows s e vs = .ok (rows.filter (rowPred s e vs)) := by
  induction rows with
  | nil => rfl
  | cons r rs ih =>
    have hr : r.sale_date.aware = true := ha r (by simp)
    have h1 : tsLeE s r.sale_date = .ok (decide (s.t ≤ r.sale_date.t)) := by
      simp [tsLeE, hs, hr]
    have h2 : tsLeE r.sale_date e = .ok (decide (r.sale_date.t ≤ e.t)) := by
      simp [tsLeE, hr, he]
    have ih2 := ih (fun x hx => ha x (List.mem_cons_of_mem _ hx))
    simp only [filterE, h1, h2, ih2, List.filter_cons, rowPred]

theorem filterE_ok_sublist (rows : List Row) (s e : Timestamp)
    (vs : List String) (out : List Row)
    (h : filterE rows s e vs = .ok out) : out.Sublist rows := by
  induction rows generalizing out with
  | nil =>
    simp only [filterE] at h
    cases h
    exact List.Sublist.refl _
  | cons r rs ih =>
    simp only [filterE] at h
    cases h1 : tsLeE s r.sale_date with
    | error m => rw [h1] at h; cases h
    | ok b1 =>
      rw [h1] at h
      cases h2 : tsLeE r.sale_date e with
      | error m => rw [h2] at h; cases h
      | ok b2 =>
        rw [h2] at h
        cases h3 : filterE rs s e vs with
        | error m => rw [h3] at h; cases h
        | ok rest =>
          rw [h3] at h
          cases h
          by_cases hc : (b1 && b2 && vs.contains r.sale_validity) = true
          · rw [if_pos hc]; exact (ih rest h3).cons₂ r
          · rw [if_neg hc]; exact (ih rest h3).cons r

theorem mem_firstOccurrences {α : Type} [DecidableEq α] (l : List α) (x : α) :
    x ∈ firstOccurrences l ↔ x ∈ l := by
  induction l with
  | nil => simp [firstOccurrences]
  | cons a as ih =>
    by_cases hxa : x = a
    · subst hxa; simp [firstOccurrences]
    · simp [firstOccurrences, List.mem_filter, hxa, ih]

theorem nodup_firstOccurrences {α : Type} [DecidableEq α] (l : List α) :
    (firstOccurrences l).Nodup := by
  induction l with
  | nil => simp [firstOccurrences]
  | cons a as ih =>
    refine List.Nodup.cons ?_ (ih.filter _)
    intro hmem
    have := (List.mem_filter.mp hmem).2
    simp at this

theorem mem_yearsSorted (rows : List Row) (y : Int) :
    y ∈ yearsSorted rows ↔ y ∈ rows.map (fun r => r.sale_date.year) :=
  ((List.perm_insertionSort _ _).mem_iff).trans (mem_firstOccurrences _ _)

theorem yearsSorted_sorted (rows : List Row) :
    (yearsSorted rows).Sorted (· < ·) := by
  have hs : (yearsSorted rows).Sorted (· ≤ ·) := List.sorted_insertionSort _ _
  have hn : (yearsSorted rows).Nodup :=
    ((List.perm_insertionSort _ _).nodup_iff).mpr (nodup_firstOccurrences _)
  exact (hs.and hn).imp (fun hab => lt_of_le_of_ne hab.1 hab.2)

theorem length_pctChange (l : List ℚ) : (pctChange l).length = l.length := by
  simp [pctChange]

theorem length_yearAvgs (rows : List Row) :
    (yearAvgs rows).length = (yearsSorted rows).length := by
  simp [yearAvgs]

theorem length_yoy (rows : List Row) :
    (yoy rows).length = (yearsSorted rows).length := by
  simp [yoy, length_pctChange, length_yearAvgs]

theorem pctChange_get (l : List ℚ) (i : Nat) (h : i < (pctChange l).length) :
    (pctChange l).get ⟨i, h⟩ =
      if i = 0 then .nan
      else pdiv (l.getD i 0 - l.getD (i - 1) 0) (l.getD (i - 1) 0) := by
  simp [pctChange, List.get_eq_getElem]

theorem yoy_get (rows : List Row) (i : Nat) (h : i < (yoy rows).length) :
    (yoy rows).get ⟨i, h⟩ =
      ((yearsSorted rows).get ⟨i, by rw [← length_yoy rows]; exact h⟩,
       pvalRound2 (pvalMul100 ((pctChange (yearAvgs rows)).get
         ⟨i, by rw [length_pctChange, length_yearAvgs, ← length_yoy rows]; exact h⟩))) := by
  simp only [yoy] at h ⊢
  rw [List.get_zip]
  refine congrArg₂ Prod.mk (by congr 1) ?_
  rw [List.get_eq_getElem, List.getElem_map, List.getElem_map]
  rfl

theorem pdiv_pos_zero (x : ℚ) (hx : 0 < x) : pdiv x 0 = .inf := by
  simp [pdiv, ne_of_gt hx, hx]

theorem pdiv_of_ne_zero (x y : ℚ) (hy : y ≠ 0) : pdiv x y = .fin (x / y) := by
  simp [pdiv, hy]

theorem sortDescByCount_perm (l : List (Nat × Nat)) :
    (sortDescByCount l).Perm l :=
  (List.reverse_perm _).trans
    ((List.perm_insertionSort _ _).trans (List.reverse_perm l))

theorem sortDescByCount_pairwise (l : List (Nat × Nat)) :
    (sortDescByCount l).Pairwise (fun a b => b.2 ≤ a.2) := by
  have h : (List.insertionSort (fun a b : Nat × Nat => a.2 ≤ b.2)
      l.reverse).Pairwise (fun a b : Nat × Nat => a.2 ≤ b.2) := by
    haveI : IsTotal (Nat × Nat) (fun a b : Nat × Nat => a.2 ≤ b.2) :=
      ⟨fun a b => Nat.le_total a.2 b.2⟩
    haveI : IsTrans (Nat × Nat) (fun a b : Nat × Nat => a.2 ≤ b.2) :=
      ⟨fun _ _ _ hab hbc => Nat.le_trans hab hbc⟩
    exact List.sorted_insertionSort _ _
  exact List.pairwise_reverse.mpr h

theorem filter_orderedInsert_eq_key (a : Nat × Nat) (s : List (Nat × Nat)) :
    (List.orderedInsert (fun x y : Nat × Nat => x.2 ≤ y.2) a s).filter
        (fun x => x.2 = a.2) =
      a :: s.filter (fun x => x.2 = a.2) := by
  induction s with
  | nil => simp [List.orderedInsert]
  | cons b t ih =>
    by_cases hab : a.2 ≤ b.2
    · simp [List.orderedInsert, hab]
    · have hne : ¬b.2 = a.2 := by omega
      simp [List.orderedInsert, hab, hne, ih]

theorem filter_orderedInsert_ne_key (a : Nat × Nat) (c : Nat)
    (hc : ¬a.2 = c) (s : List (Nat × Nat)) :
    (List.orderedInsert (fun x y : Nat × Nat => x.2 ≤ y.2) a s).filter
        (fun x => x.2 = c) =
      s.filter (fun x => x.2 = c) := by
  induction s with
  | nil => simp [List.orderedInsert, hc]
  | cons b t ih =>
    by_cases hab : a.2 ≤ b.2
    · simp [List.orderedInsert, hab, hc]
    · simp [List.orderedInsert, hab, List.filter_cons, ih]

theorem filter_insertionSort_key (m : List (Nat × Nat)) (c : Nat) :
    (List.insertionSort (fun x y : Nat × Nat => x.2 ≤ y.2) m).filter
        (fun x => x.2 = c) =
      m.filter (fun x => x.2 = c) := by
  induction m with
  | nil => rfl
  | cons a t ih =>
    rw [List.insertionSort]
    by_cases hac : a.2 = c
    · subst hac
      rw [filter_orderedInsert_eq_key, ih]
      simp [List.filter_cons]
    · rw [filter_orderedInsert_ne_key a c hac, ih]
      simp [List.filter_cons, hac]

theorem sortDescByCount_stable (l : List (Nat × Nat)) (c : Nat) :
    (sortDescByCount l).filter (fun x => x.2 = c) =
      l.filter (fun x => x.2 = c) := by
  rw [sortDescByCount, List.filter_reverse, filter_insertionSort_key,
    List.filter_reverse, List.reverse_reverse]

end Fairfax

/-! Claim theorems. -/

namespace Fairfax

/-- C1, counterexample: the claim asserts that `sale_date` values are
normalised to UTC at load time and that a naive/aware mixed comparison
never occurs, so that filtering never fails on that account.  On a
dataset whose stored `sale_date` carries no zone information,
`pd.to_datetime` (called without `utc=True`) leaves the value zone-naive,
while both filter bounds are `tz_localize`d to UTC; the very first date
comparison of the filter then raises, and the filter returns an error
instead of a view. -/
theorem c1_counterexample :
    filtered_df [rowNaive] ⟨0, 2021, false⟩ ⟨200, 2021, false⟩ ["VALID"] =
      .error tzMismatchMsg := rfl

/-- C1, amended: the filter bounds are always tz-localised to UTC before
comparison, and `sale_date` keeps the zone-awareness of the raw data.
When every row's `sale_date` is zone-aware, every comparison the filter
performs is between two UTC-aware values, and filtering succeeds,
returning exactly the rows selected by the pure inclusion predicate. -/
theorem c1_tz_consistent_when_aware (rows : List Row)
    (start_date end_date : Timestamp) (vs : List String)
    (ha : ∀ r ∈ rows, r.sale_date.aware = true) :
    filtered_df rows start_date end_date vs =
      .ok (rows.filter
        (rowPred (tz_localize_utc start_date) (tz_localize_utc end_date) vs)) :=
  filterE_ok_of_aware rows _ _ vs rfl rfl ha

/-- C1, witness: on a dataset whose sale dates are all zone-aware, the
filter succeeds and returns the matching rows. -/
theorem c1_tz_consistent_when_aware_witness :
    filtered_df [rowAware1, rowAware2] ⟨0, 2021, false⟩ ⟨10, 2021, false⟩
      ["VALID"] = .ok [rowAware1] := by
  rw [c1_tz_consistent_when_aware [rowAware1, rowAware2] ⟨0, 2021, false⟩
    ⟨10, 2021, false⟩ ["VALID"] (by decide)]
  rfl

/-- C2: a row of a (zone-aware, i.e. normalised) dataset belongs to the
filtered view iff `start_date <= sale_date <= end_date` (both inclusive,
compared as instants) and its `sale_validity` is a member of the
validity filter list. -/
theorem c2_inclusion_predicate (rows : List Row) (s e : Timestamp)
    (vs : List String) (out : List Row) (r : Row)
    (ha : ∀ x ∈ rows, x.sale_date.aware = true)
    (hout : filtered_df rows s e vs = .ok out) :
    r ∈ out ↔
      r ∈ rows ∧ (s.t ≤ r.sale_date.t ∧ r.sale_date.t ≤ e.t) ∧
        r.sale_validity ∈ vs := by
  have h := filterE_ok_of_aware rows (tz_localize_utc s) (tz_localize_utc e)
    vs rfl rfl ha
  rw [filtered_df, h] at hout
  cases hout
  simp [List.mem_filter, rowPred, tz_localize_utc, and_assoc]

/-- C2, witness: on a concrete two-row dataset, a row is in the filtered
view exactly when it satisfies the date-range and validity predicate. -/
theorem c2_inclusion_predicate_witness :
    rowAware1 ∈ [rowAware1] ↔
      rowAware1 ∈ [rowAware1, rowAware2] ∧
        ((0 : Int) ≤ rowAware1.sale_date.t ∧ rowAware1.sale_date.t ≤ 10) ∧
        rowAware1.sale_validity ∈ ["VALID"] := by
  have h := c2_inclusion_predicate [rowAware1, rowAware2] ⟨0, 2021, false⟩
    ⟨10, 2021, false⟩ ["VALID"] [rowAware1] rowAware1 (by decide) (by rfl)
  exact h

/-- C8: with an empty validity set, the filter over a (zone-aware)
dataset returns the empty view, regardless of the date bounds: the
membership test `isin([])` holds for no row. -/
theorem c8_empty_validity_set (rows : List Row) (s e : Timestamp)
    (ha : ∀ x ∈ rows, x.sale_date.aware = true) :
    filtered_df rows s e [] = .ok [] := by
  rw [filtered_df, filterE_ok_of_aware rows _ _ [] rfl rfl ha]
  refine congrArg Except.ok (List.filter_eq_nil_iff.mpr ?_)
  intro r _
  simp [rowPred]

/-- C8, witness: the empty validity set empties a concrete view. -/
theorem c8_empty_validity_set_witness :
    filtered_df [rowAware1, rowAware2] ⟨0, 2021, false⟩ ⟨100, 2021, false⟩ [] =
      .ok [] :=
  c8_empty_validity_set [rowAware1, rowAware2] ⟨0, 2021, false⟩
    ⟨100, 2021, false⟩ (by decide)

/-- C9: a reverse date range (start strictly after end) yields the empty
view over a (zone-aware) dataset, and no error is raised: the result is
a normal `ok` value. -/
theorem c9_reverse_range_empty (rows : List Row) (s e : Timestamp)
    (vs : List String) (ha : ∀ x ∈ rows, x.sale_date.aware = true)
    (hrev : e.t < s.t) :
    filtered_df rows s e vs = .ok [] := by
  rw [filtered_df, filterE_ok_of_aware rows _ _ vs rfl rfl ha]
  refine congrArg Except.ok (List.filter_eq_nil_iff.mpr ?_)
  intro r _
  simp only [rowPred, tz_localize_utc, Bool.and_eq_true, decide_eq_true_eq,
    not_and]
  intro hle
  omega

/-- C9, witness: a concrete reverse range returns the empty view. -/
theorem c9_reverse_range_empty_witness :
    filtered_df [rowAware1, rowAware2] ⟨50, 2021, false⟩ ⟨10, 2021, false⟩
      ["VALID"] = .ok [] :=
  c9_reverse_range_empty [rowAware1, rowAware2] ⟨50, 2021, false⟩
    ⟨10, 2021, false⟩ ["VALID"] (by decide) (by decide)

/-- C10: filtering is a pure selection: whenever the filter succeeds, the
resulting view is a sublist of the input dataset — every row of the view
is a row of the input with all fields unchanged, kept in input order and
multiplicity.  The input itself is untouched (all pipeline stages are
pure functions of their arguments). -/
theorem c10_filter_pure_selection (rows : List Row) (s e : Timestamp)
    (vs : List String) (out : List Row)
    (hout : filtered_df rows s e vs = .ok out) :
    out.Sublist rows :=
  filterE_ok_sublist rows _ _ vs out hout

/-- C10, witness: a concrete filtered view is a sublist of its dataset. -/
theorem c10_filter_pure_selection_witness :
    List.Sublist [rowAware1] [rowAware1, rowAware2] :=
  c10_filter_pure_selection [rowAware1, rowAware2] ⟨0, 2021, false⟩
    ⟨10, 2021, false⟩ ["VALID"] [rowAware1] (by rfl)

/-- C3, counterexample: the claim asserts every normalised `sale_validity`
is non-empty.  A present but whitespace-only raw value is not null, so
`fillna` leaves it alone, and strip + upper turn it into the empty
string: the normalised dataset contains an empty `sale_validity`. -/
theorem c3_counterexample :
    (load_data [rawBlankValidity]).map (fun r => r.sale_validity) = [""] ∧
      (load_data [rawBlankValidity]).map (fun r => r.sale_validity.isEmpty) =
        [true] := by
  exact ⟨rfl, rfl⟩

/-- C3, amended: after normalisation `sale_validity` is never null (it is
a plain string): an absent raw value becomes the exact literal
`"UNKNOWN"`, and a present raw value is trimmed of surrounding
whitespace and upper-cased — which can leave the empty string when the
raw value was empty or whitespace-only. -/
theorem c3_validity_normalization (raw : List RawRow) (r : Row)
    (hr : r ∈ load_data raw) :
    ∃ rr ∈ raw, r.sale_validity = normalizeValidity rr.sale_validity ∧
      (rr.sale_validity = none → r.sale_validity = "UNKNOWN") ∧
      (∀ s, rr.sale_validity = some s →
        r.sale_validity = pyUpper (pyStrip s)) := by
  rcases List.mem_map.mp hr with ⟨rr, hmem, heq⟩
  refine ⟨rr, hmem, ?_, ?_, ?_⟩
  · rw [← heq]
  · intro hnone
    rw [← heq]
    simp [normalizeValidity, hnone]
    rfl
  · intro s hsome
    rw [← heq]
    simp [normalizeValidity, hsome]

/-- C3, witness: a messy but non-blank raw validity is trimmed and
upper-cased by normalisation. -/
theorem c3_validity_normalization_witness :
    ∃ rr ∈ [rawMessyValidity],
      rowMessyNormalized.sale_validity = normalizeValidity rr.sale_validity ∧
      (rr.sale_validity = none → rowMessyNormalized.sale_validity = "UNKNOWN") ∧
      (∀ s, rr.sale_validity = some s →
        rowMessyNormalized.sale_validity = pyUpper (pyStrip s)) :=
  c3_validity_normalization [rawMessyValidity] rowMessyNormalized (by decide)

/-- C7: the KPI summary counts exactly the rows of the view and sums
exactly its prices; on the empty view the count is 0, the total volume
is 0 and the average price is the NaN sentinel — each KPI is a total
function, so nothing raises on empty input. -/
theorem c7_summarize_kpis (rows : List Row) :
    (summarize rows).count = rows.length ∧
    (summarize rows).total_volume = (rows.map (fun r => r.price)).sum ∧
    (summarize ([] : List Row)).count = 0 ∧
    (summarize ([] : List Row)).total_volume = 0 ∧
    (summarize ([] : List Row)).average_price = PVal.nan :=
  ⟨rfl, rfl, rfl, rfl, rfl⟩

/-- C4, counterexample: the claim asserts that when a year of average
price zero is followed by an occupied year, that later year's YoY entry
is an explicit undefined value, neither zero nor infinity.  On a view
with average 0 in 2020 and average 100 in 2021, the code's
`pct_change` divides by the zero base and produces the IEEE infinity
(`PVal.inf`) for 2021 — an infinity, not the NaN/undefined sentinel. -/
theorem c4_counterexample :
    yoy [rowZero2020, rowHundred2021] =
        [(2020, PVal.nan), (2021, PVal.inf)] ∧
      PVal.inf ≠ PVal.nan := by
  constructor
  · norm_num [yoy, yearsSorted, yearAvgs, groupMean, mean, pctChange, pdiv,
      pvalMul100, pvalRound2, firstOccurrences, rowZero2020, rowHundred2021,
      List.insertionSort, List.orderedInsert, List.range_succ]
  · decide

/-- C4, amended: the YoY computation is total (it never raises), but a
zero-average base year is not guarded: when a year's average is zero and
the next occupied year's average is positive, the later year's entry is
the IEEE positive infinity, silently produced by the division. -/
theorem c4_yoy_zero_base_infinite (rows : List Row) (i : Nat)
    (h1 : i < (yearAvgs rows).length) (h2 : i + 1 < (yearAvgs rows).length)
    (h3 : i + 1 < (yearsSorted rows).length) (h4 : i + 1 < (yoy rows).length)
    (hz : (yearAvgs rows).get ⟨i, h1⟩ = 0)
    (hpos : 0 < (yearAvgs rows).get ⟨i + 1, h2⟩) :
    (yoy rows).get ⟨i + 1, h4⟩ =
      ((yearsSorted rows).get ⟨i + 1, h3⟩, PVal.inf) := by
  rw [yoy_get rows (i + 1) h4]
  refine congrArg₂ Prod.mk rfl ?_
  rw [pctChange_get]
  simp only [Nat.succ_ne_zero, if_false, Nat.add_sub_cancel]
  rw [List.getD_eq_get _ _ (by omega), List.getD_eq_get _ _ (by omega)]
  have hz2 : (yearAvgs rows).get ⟨i, by omega⟩ = 0 := hz
  have hpos2 : 0 < (yearAvgs rows).get ⟨i + 1, by omega⟩ := hpos
  rw [hz2, sub_zero, pdiv_pos_zero _ hpos2]
  rfl

/-- C4, witness: the 2020-average-zero, 2021-average-100 view gets the
infinite YoY entry for 2021. -/
theorem c4_yoy_zero_base_infinite_witness :
    (yoy [rowZero2020, rowHundred2021]).get ⟨1, by decide⟩ =
      (2021, PVal.inf) := by
  have h := c4_yoy_zero_base_infinite [rowZero2020, rowHundred2021] 0
    (by decide) (by decide) (by decide) (by decide)
    (by norm_num [yearAvgs, yearsSorted, groupMean, mean, firstOccurrences,
      rowZero2020, rowHundred2021, List.insertionSort, List.orderedInsert])
    (by norm_num [yearAvgs, yearsSorted, groupMean, mean, firstOccurrences,
      rowZero2020, rowHundred2021, List.insertionSort, List.orderedInsert])
  exact h.trans (by decide)

/-- C5: for a non-empty view, `yoy` groups rows by calendar year of
`sale_date` (the index is exactly the set of sale years), orders the
entries strictly ascending by year, gives the first entry the NaN
("not applicable") sentinel, and gives every later entry
`(avg[year] - avg[prev]) / avg[prev] * 100` rounded to 2 decimals, where
`prev` is the immediately preceding year present in the sorted aggregate
(calendar gap years are skipped), provided that base average is
non-zero. -/
theorem c5_yoy_structure (rows : List Row) (hne : rows ≠ []) :
    ((yoy rows).map Prod.fst = yearsSorted rows) ∧
    (∀ y : Int, y ∈ yearsSorted rows ↔
      y ∈ rows.map (fun r => r.sale_date.year)) ∧
    ((yearsSorted rows).Sorted (· < ·)) ∧
    (0 < (yoy rows).length) ∧
    (∀ p : Int × PVal, (yoy rows)[0]? = some p → p.2 = PVal.nan) ∧
    (∀ (i : Nat) (h1 : i < (yearAvgs rows).length)
        (h2 : i + 1 < (yearAvgs rows).length)
        (h3 : i + 1 < (yearsSorted rows).length)
        (h4 : i + 1 < (yoy rows).length),
        (yearAvgs rows).get ⟨i, h1⟩ ≠ 0 →
        (yoy rows).get ⟨i + 1, h4⟩ =
          ((yearsSorted rows).get ⟨i + 1, h3⟩,
            PVal.fin (round2 (((yearAvgs rows).get ⟨i + 1, h2⟩ -
              (yearAvgs rows).get ⟨i, h1⟩) /
                (yearAvgs rows).get ⟨i, h1⟩ * 100)))) := by
  have hlen : 0 < (yoy rows).length := by
    rw [length_yoy]
    cases rows with
    | nil => exact absurd rfl hne
    | cons r rs =>
      exact List.length_pos_of_mem
        ((mem_yearsSorted (r :: rs) r.sale_date.year).mpr (by simp))
  refine ⟨?_, fun y => mem_yearsSorted rows y, yearsSorted_sorted rows, hlen,
    ?_, ?_⟩
  · simp only [yoy]
    exact List.map_fst_zip _ _ (by simp [length_pctChange, length_yearAvgs])
  · intro p hp
    rw [List.getElem?_eq_getElem hlen] at hp
    cases hp
    have h0 := yoy_get rows 0 hlen
    rw [← List.get_eq_getElem (yoy rows) ⟨0, hlen⟩] at *
    rw [h0]
    rw [pctChange_get]
    simp [pvalMul100, pvalRound2]
  · intro i h1 h2 h3 h4 hz
    rw [yoy_get rows (i + 1) h4]
    refine congrArg₂ Prod.mk rfl ?_
    rw [pctChange_get]
    simp only [Nat.succ_ne_zero, if_false, Nat.add_sub_cancel]
    rw [List.getD_eq_get _ _ (by omega), List.getD_eq_get _ _ (by omega)]
    have hz2 : (yearAvgs rows).get ⟨i, by omega⟩ ≠ 0 := hz
    rw [pdiv_of_ne_zero _ _ hz2]
    rfl

/-- C5, witness: on a view with average 100 in 2020 and 150 in 2021, the
2021 entry is an exact +50 percent change. -/
theorem c5_yoy_structure_witness :
    (yoy [rowAvg2020, rowAvg2021]).get ⟨1, by decide⟩ =
      (2021, PVal.fin 50) := by
  have h := (c5_yoy_structure [rowAvg2020, rowAvg2021] (by decide)).2.2.2.2.2
    0 (by decide) (by decide) (by decide) (by decide)
    (by norm_num [yearAvgs, yearsSorted, groupMean, mean, firstOccurrences,
      rowAvg2020, rowAvg2021, List.insertionSort, List.orderedInsert])
  refine h.trans ?_
  refine congrArg₂ Prod.mk (by decide) ?_
  norm_num [yearAvgs, yearsSorted, groupMean, mean, firstOccurrences,
    rowAvg2020, rowAvg2021, List.insertionSort, List.orderedInsert,
    round2, rhe]

/-- C6: `top_props view n` (the app uses `n = 10`) returns
`min n d` entries where `d` is the number of distinct property ids — so
at most `n`, and exactly `d` when fewer than `n` distinct properties
exist; the entries are sorted descending by count; the returned prefix
is the first `n` entries of the stably descending-sorted count list,
and that sort is stable with respect to first-encounter order in the
view: for every count value, the entries carrying that count appear in
exactly their first-encounter order (the filter of the sorted list at
each count equals the filter of the encounter-ordered count list); each
entry pairs a property id occurring in the view with its exact number
of sales; and every returned count is at least the count of every entry
excluded by the truncation. -/
theorem c6_top_props_contract (rows : List Row) (n : Nat) :
    ((top_props rows n).length = min n (countsInOrder rows).length) ∧
    ((top_props rows n).Pairwise (fun a b => b.2 ≤ a.2)) ∧
    (top_props rows n = (sortDescByCount (countsInOrder rows)).take n) ∧
    (∀ c : Nat,
      (sortDescByCount (countsInOrder rows)).filter (fun pc => pc.2 = c) =
        (countsInOrder rows).filter (fun pc => pc.2 = c)) ∧
    (∀ pc ∈ top_props rows n,
      pc.2 = (rows.map (fun r => r.property_id)).count pc.1 ∧
        pc.1 ∈ rows.map (fun r => r.property_id)) ∧
    (∀ a ∈ top_props rows n,
      ∀ b ∈ (sortDescByCount (countsInOrder rows)).drop n, b.2 ≤ a.2) := by
  refine ⟨?_, ?_, rfl, fun c => sortDescByCount_stable _ c, ?_, ?_⟩
  · rw [top_props, List.length_take, (sortDescByCount_perm _).length_eq]
  · exact List.Pairwise.sublist (List.take_sublist _ _)
      (sortDescByCount_pairwise _)
  · intro pc hpc
    have hmem : pc ∈ countsInOrder rows :=
      ((sortDescByCount_perm _).mem_iff).mp
        (List.mem_of_mem_take hpc)
    rcases List.mem_map.mp hmem with ⟨p, hp, hpeq⟩
    have hpmem : p ∈ rows.map (fun r => r.property_id) :=
      (mem_firstOccurrences _ _).mp hp
    rw [← hpeq]
    exact ⟨rfl, hpmem⟩
  · intro a ha b hb
    have hp := sortDescByCount_pairwise (countsInOrder rows)
    rw [← List.take_append_drop n (sortDescByCount (countsInOrder rows))]
      at hp
    exact (List.pairwise_append.mp hp).2.2 a ha b hb

end Fairfax
